import Mathlib

/-!
Verification of the rclone_exporter probe core.

Shallow embedding of the probe execution and metrics-registry core of
`crazyuploader/rclone_exporter`:

* `internal/rclone/client.go` — `RcloneSizeOutput`, `GetRemoteSize`
  (subprocess classification and JSON output parsing/validation);
* `internal/exporter` (the evolved revision with per-remote gauge vectors,
  `validateRemote`, `handleError`, the concurrency semaphore and
  `ProbeHandler`).

Machine integers (`int64`) are modelled as `Int` with explicit bounds where
the Go JSON decoder enforces them.  `float64` gauge values are modelled as
`ℚ` (every value written by the code is an integer or an elapsed-seconds
duration; rounding of huge `int64` to `float64` is below the abstraction
level of the claims).  The Go `encoding/json` unmarshalling into the
two-field struct is embedded by a small JSON parser plus a field decoder
reproducing its observable behavior on this struct: missing fields keep
their zero value, `null` is a no-op, object keys match case-insensitively,
non-integer numbers and wrong-typed values are errors, trailing data is an
error.
-/

namespace RcloneExporter

/-- JSON output of `rclone size --json` (client.go `RcloneSizeOutput`):
`Count` and `Bytes`, both `int64`. -/
structure RcloneSizeOutput where
  count : Int
  bytes : Int
deriving DecidableEq, Repr

/-- JSON values as decoded by `encoding/json`.  Numbers are split into
integer literals (`num`) and non-integer literals (`numOther`, i.e. with a
fraction or exponent part): only the former can decode into an `int64`
field. -/
inductive Json where
  | null : Json
  | bool : Bool → Json
  | num : Int → Json
  | numOther : Json
  | str : String → Json
  | arr : List Json → Json
  | obj : List (String × Json) → Json

/-- JSON insignificant whitespace characters (RFC 8259: space, tab, LF,
CR). -/
def jsonWsChars : List Char := [' ', '\t', '\n', '\r']

/-- Drop leading JSON whitespace. -/
def skipWs : List Char → List Char
  | [] => []
  | c :: cs => if jsonWsChars.contains c then skipWs cs else c :: cs

/-- Table of JSON string escape characters and their translations. -/
def escPairs : List (Char × Char) :=
  [('"', '"'), ('\\', '\\'), ('/', '/'), ('n', '\n'),
   ('t', '\t'), ('r', '\r'), ('b', Char.ofNat 8), ('f', Char.ofNat 12)]

/-- Translation of a JSON string escape character. -/
def escChar (c : Char) : Option Char :=
  (escPairs.find? (fun p => p.1 = c)).map Prod.snd

/-- Parse the body of a JSON string after the opening quote, accumulating
into `acc`; returns the string and the remaining input. -/
def parseStringBody : List Char → List Char → Option (String × List Char)
  | [], _ => none
  | '"' :: rest, acc => some (String.mk acc.reverse, rest)
  | '\\' :: [], _ => none
  | '\\' :: e :: rest, acc =>
      match escChar e with
      | some c => parseStringBody rest (c :: acc)
      | none => none
  | c :: rest, acc => parseStringBody rest (c :: acc)

/-- Split a leading run of ASCII digits from the input. -/
def takeDigits (cs : List Char) : List Char × List Char :=
  match cs with
  | [] => ([], [])
  | c :: tl =>
      if ¬ c.isDigit then ([], cs)
      else
        match takeDigits tl with
        | (ds, r) => (c :: ds, r)

/-- The three JSON keyword literals and their values. -/
def jsonKeywords : List (List Char × Json) :=
  [("null".data, Json.null),
   ("true".data, Json.bool true),
   ("false".data, Json.bool false)]

/-- Match one of the keyword literals at the head of the input, returning
its value and the rest of the input. -/
def matchKeyword : List (List Char × Json) → List Char → Option (Json × List Char)
  | [], _ => none
  | (w, j) :: tl, cs =>
      if w.isPrefixOf cs then some (j, cs.drop w.length) else matchKeyword tl cs

/-- Numeric value of a digit run. -/
def digitsToNat (ds : List Char) : Nat :=
  ds.foldl (fun n c => n * 10 + (c.toNat - 48)) 0

/-- Parse an optional exponent part of a JSON number; the literal is
non-integer, so the value is `Json.numOther`. -/
def parseExpTail : List Char → Option (Json × List Char)
  | 'e' :: r =>
      let r2 := match r with
        | '+' :: t => t
        | '-' :: t => t
        | t => t
      let (es, r3) := takeDigits r2
      if es = [] then none else some (.numOther, r3)
  | 'E' :: r =>
      let r2 := match r with
        | '+' :: t => t
        | '-' :: t => t
        | t => t
      let (es, r3) := takeDigits r2
      if es = [] then none else some (.numOther, r3)
  | rest => some (.numOther, rest)

/-- Parse a JSON number (grammar of RFC 8259: optional minus, no leading
zeros, optional fraction and exponent).  Plain integer literals give
`Json.num`, anything with a fraction or exponent gives `Json.numOther`. -/
def parseNumber (cs : List Char) : Option (Json × List Char) :=
  let neg : Bool := cs.headD ' ' = '-'
  let afterSign : List Char := if neg then cs.tail else cs
  let (ds, cs2) := takeDigits afterSign
  if ds = [] then none
  else if ds.length > 1 ∧ ds.headD 'x' = '0' then none
  else
    match cs2 with
    | '.' :: r =>
        let (fs, cs3) := takeDigits r
        if fs = [] then none else parseExpTail cs3
    | 'e' :: r => parseExpTail ('e' :: r)
    | 'E' :: r => parseExpTail ('E' :: r)
    | _ =>
        let n : Int := (digitsToNat ds : Int)
        some (.num (if neg then -n else n), cs2)

/-- Opening curly bracket character. -/
def openBrace : Char := Char.ofNat 123

/-- Closing curly bracket character. -/
def closeBrace : Char := Char.ofNat 125

mutual

/-- Parse one JSON value (fuel-indexed recursion; fuel is always ample for
the inputs the exporter sees). -/
def parseValue : Nat → List Char → Option (Json × List Char)
  | 0, _ => none
  | fuel + 1, cs =>
      match skipWs cs with
      | [] => none
      | c :: r =>
          if c = '"' then
            match parseStringBody r [] with
            | some (s, rest) => some (.str s, rest)
            | none => none
          else if c = '[' then
            match skipWs r with
            | ']' :: r2 => some (.arr [], r2)
            | r2 => match parseElems fuel r2 with
                    | some (xs, rest) => some (.arr xs, rest)
                    | none => none
          else if c = openBrace then
            match skipWs r with
            | c2 :: r2 =>
                if c2 = closeBrace then some (.obj [], r2)
                else match parseMembers fuel (c2 :: r2) with
                     | some (ms, rest) => some (.obj ms, rest)
                     | none => none
            | [] => none
          else
            match matchKeyword jsonKeywords (c :: r) with
            | some jr => some jr
            | none => parseNumber (c :: r)

/-- Parse the elements of a non-empty JSON array up to `]`. -/
def parseElems : Nat → List Char → Option (List Json × List Char)
  | 0, _ => none
  | fuel + 1, cs =>
      match parseValue fuel cs with
      | none => none
      | some (j, rest) =>
          match skipWs rest with
          | ',' :: r2 =>
              match parseElems fuel r2 with
              | some (xs, rest2) => some (j :: xs, rest2)
              | none => none
          | ']' :: r2 => some ([j], r2)
          | _ => none

/-- Parse the members of a non-empty JSON object up to the closing brace. -/
def parseMembers : Nat → List Char → Option (List (String × Json) × List Char)
  | 0, _ => none
  | fuel + 1, cs =>
      match skipWs cs with
      | '"' :: r =>
          match parseStringBody r [] with
          | none => none
          | some (k, rest) =>
              match skipWs rest with
              | ':' :: r2 =>
                  match parseValue fuel r2 with
                  | none => none
                  | some (v, rest2) =>
                      match skipWs rest2 with
                      | ',' :: r3 =>
                          match parseMembers fuel r3 with
                          | some (ms, rest3) => some ((k, v) :: ms, rest3)
                          | none => none
                      | c3 :: r3 =>
                          if c3 = closeBrace then some ([(k, v)], r3) else none
                      | [] => none
              | _ => none
      | _ => none

end

/-- Decode a byte string as one JSON value; like `json.Unmarshal`, trailing
non-whitespace data is an error. -/
def jsonParse (s : String) : Option Json :=
  match parseValue (s.length + 2) s.data with
  | some (j, rest) => if skipWs rest = [] then some j else none
  | none => none

/-- Lower bound of `int64`. -/
def int64Min : Int := -(2 ^ 63)

/-- Upper bound of `int64`. -/
def int64Max : Int := 2 ^ 63 - 1

/-- Decoding one JSON value into an `int64` struct field holding `cur`:
`null` keeps the current value, an in-range integer literal overwrites it,
everything else is an unmarshalling error. -/
def fieldToInt64 (cur : Int) : Json → Option Int
  | .null => some cur
  | .num n => if int64Min ≤ n ∧ n ≤ int64Max then some n else none
  | _ => none

/-- ASCII-case-insensitive canonical form of an object key (the Go decoder
matches field names case-insensitively). -/
def lowerKey (s : String) : String :=
  String.mk (s.data.map Char.toLower)

/-- One object member applied to the partially decoded struct: keys match
the `count` / `bytes` tags case-insensitively, unknown keys are ignored. -/
def applySizeField (acc : RcloneSizeOutput) (kv : String × Json) :
    Option RcloneSizeOutput :=
  if lowerKey kv.1 = "count" then
    (fieldToInt64 acc.count kv.2).map (fun n => { acc with count := n })
  else if lowerKey kv.1 = "bytes" then
    (fieldToInt64 acc.bytes kv.2).map (fun n => { acc with bytes := n })
  else some acc

/-- Embedding of `json.Unmarshal` into `RcloneSizeOutput`: a JSON object is folded member
by member over the zero-valued struct (later duplicates overwrite), JSON
`null` leaves the struct zero-valued, any other value is a type error. -/
def unmarshalSize : Json → Option RcloneSizeOutput
  | .null => some ⟨0, 0⟩
  | .obj fields => fields.foldlM applySizeField ⟨0, 0⟩
  | _ => none

/-- The full `json.Unmarshal(output, &result)` step of `GetRemoteSize`. -/
def decodeSizeJson (s : String) : Option RcloneSizeOutput :=
  (jsonParse s).bind unmarshalSize

/-! ## The rclone client (`internal/rclone/client.go`) -/

/-- Whitespace as trimmed by the Go function `strings.TrimSpace` (ASCII part:
tab, LF, vertical tab, form feed, CR, space; the rare non-ASCII Unicode
spaces are outside every character set these programs accept and are not
modelled). -/
def isSpaceChar (c : Char) : Bool :=
  [' ', '\t', '\n', '\r', Char.ofNat 11, Char.ofNat 12].contains c

/-- Model of the Go function `strings.TrimSpace`: drop leading and trailing whitespace. -/
def trimSpace (s : String) : String :=
  String.mk ((((s.data.dropWhile isSpaceChar).reverse).dropWhile isSpaceChar).reverse)

/-- Errors returned by `GetRemoteSize`, one constructor per `return nil, …`
branch of the Go function (the Go error strings are noted in comments). -/
inductive RcloneErr where
  /-- Go error: remote name cannot be empty. -/
  | emptyRemote : RcloneErr
  /-- Go error: rclone command timed out after [timeout] for remote [r]. -/
  | timeout : RcloneErr
  /-- Go error: rclone command failed for remote [r] (exit code [c]): [output]. -/
  | nonZeroExit : Int → String → RcloneErr
  /-- Go error: failed to run rclone for remote [r]. -/
  | launchFailure : RcloneErr
  /-- Go error: rclone returned empty output for remote [r]. -/
  | emptyOutput : RcloneErr
  /-- Go error: invalid rclone JSON output for remote [r]. -/
  | invalidJson : RcloneErr
  /-- Go error: rclone returned invalid negative values for remote [r]. -/
  | negativeValues : RcloneErr
deriving DecidableEq, Repr

/-- Outcome of the external subprocess (`cmd.CombinedOutput()` together with
the context state), as classified by the error-handling chain of
`GetRemoteSize`: deadline expiry is checked first, then `*exec.ExitError`
(non-zero exit), then any other start failure; otherwise the combined
output bytes are available. -/
inductive ExecOutcome where
  | timeout : ExecOutcome
  | exited : Int → String → ExecOutcome
  | launchFailure : ExecOutcome
  | success : String → ExecOutcome
deriving DecidableEq, Repr

/-- Parsing/validation stage of `GetRemoteSize` on a successful subprocess
run (client.go lines 152–174): empty output, JSON decode, and the
negative-value check. -/
def parseSizeOutput (output : String) : Except RcloneErr RcloneSizeOutput :=
  if output = "" then .error .emptyOutput
  else
    match decodeSizeJson output with
    | none => .error .invalidJson
    | some result =>
        if result.bytes < 0 ∨ result.count < 0 then .error .negativeValues
        else .ok result

/-- Function `GetRemoteSize` as a function of the remote name and the subprocess
outcome: the empty-remote guard, the three-way failure classification
(timeout first, then non-zero exit with the trimmed combined output, then
launch failure), then output parsing/validation. -/
def getRemoteSize (remote : String) (exec : ExecOutcome) :
    Except RcloneErr RcloneSizeOutput :=
  if remote = "" then .error .emptyRemote
  else
    match exec with
    | .timeout => .error .timeout
    | .exited code output => .error (.nonZeroExit code (trimSpace output))
    | .launchFailure => .error .launchFailure
    | .success output => parseSizeOutput output

/-! ## The exporter (`internal/exporter`, evolved revision) -/

/-- Constant `MaxRemoteNameLength`. -/
def MaxRemoteNameLength : Nat := 255

/-- Constant `MaxConcurrentProbes` (capacity of the probe semaphore). -/
def MaxConcurrentProbes : Nat := 10

/-- Character class of `remoteNameRegex`, i.e. `[a-zA-Z0-9_\-\.:/]`. -/
def allowedRemoteChar (c : Char) : Bool :=
  c.isAlpha ∨ c.isDigit ∨ c = '_' ∨ c = '-' ∨ c = '.' ∨ c = ':' ∨ c = '/'

/-- Model of `remoteNameRegex.MatchString`: the anchored pattern
`^[a-zA-Z0-9_\-\.:/]+$` matches exactly the non-empty strings all of whose
characters are in the class. -/
def remoteNameMatches (s : String) : Bool :=
  !s.data.isEmpty && s.data.all allowedRemoteChar

/-- Validation errors of `validateRemote` (Go error strings in comments). -/
inductive ValidateErr where
  /-- Go error: remote name cannot be empty. -/
  | empty : ValidateErr
  /-- Go error: remote name too long (max [n] characters). -/
  | tooLong : ValidateErr
  /-- Go error: remote name contains invalid characters. -/
  | invalidChars : ValidateErr
deriving DecidableEq, Repr

/-- Validator `validateRemote`: empty check, byte-length bound (`len(remote)` in Go is
the UTF-8 byte length), then the regex match. -/
def validateRemote (remote : String) : Except ValidateErr Unit :=
  if remote = "" then .error .empty
  else if remote.utf8ByteSize > MaxRemoteNameLength then .error .tooLong
  else if ¬ remoteNameMatches remote then .error .invalidChars
  else .ok ()

/-- Pointwise update of a labelled gauge vector
(`gauge.WithLabelValues(label).Set(v)`). -/
def setGauge (g : String → Option ℚ) (label : String) (v : ℚ) :
    String → Option ℚ :=
  fun x => if x = label then some v else g x

/-- The `Exporter` metrics state: the four per-remote gauge vectors (a
label that was never written holds `none`), the two lifetime counters, the
number of semaphore permits currently held, and the last-observed values
mirrored for the OpenTelemetry observable gauges. -/
structure ExporterState where
  rcloneSizeBytes : String → Option ℚ
  rcloneObjectsCount : String → Option ℚ
  probeSuccess : String → Option ℚ
  probeDurationSeconds : String → Option ℚ
  scrapeErrorsTotal : Nat
  probeRequestsTotal : Nat
  semaphoreCount : Nat
  lastRcloneSizeBytes : Int
  lastRcloneObjectsCount : Int
  lastProbeSuccess : Int
  lastProbeDurationSeconds : ℚ

/-- The state of a freshly constructed `Exporter` (`NewExporter`): no gauge
label has been written, counters are zero, the semaphore is empty. -/
def initState : ExporterState where
  rcloneSizeBytes := fun _ => none
  rcloneObjectsCount := fun _ => none
  probeSuccess := fun _ => none
  probeDurationSeconds := fun _ => none
  scrapeErrorsTotal := 0
  probeRequestsTotal := 0
  semaphoreCount := 0
  lastRcloneSizeBytes := 0
  lastRcloneObjectsCount := 0
  lastProbeSuccess := 0
  lastProbeDurationSeconds := 0

/-- Helper `handleError`: increments the error counter, sets the success gauge for
the remote to 0 when the remote string is non-empty, and responds with the
given HTTP status. -/
def handleError (st : ExporterState) (remote : String) (status : Nat) :
    ExporterState × Nat :=
  let st1 := { st with scrapeErrorsTotal := st.scrapeErrorsTotal + 1 }
  let st2 :=
    if remote ≠ "" then
      { st1 with
          probeSuccess := setGauge st1.probeSuccess remote 0
          lastProbeSuccess := 0 }
    else st1
  (st2, status)

/-- Result of one `ProbeHandler` invocation: the final exporter state, the
HTTP status of the response, and whether the rclone client was invoked. -/
structure ProbeOutcome where
  state : ExporterState
  status : Nat
  invokedClient : Bool

/-- The `ProbeHandler` as a state transformer.  Inputs beyond the state: the
raw `remote` query parameter, the behavior of the injected rclone client
(`GetRemoteSize`), and the elapsed duration in seconds that
`time.Since(start).Seconds()` reports at exit.  The steps mirror the Go
handler: increment the request counter; trim the parameter; validate
(failure → `handleError` 400); non-blocking semaphore acquisition (full →
`handleError` 429); invoke the client (error → `handleError` 500, success
→ write size/count/success gauges for the remote); finally the deferred
duration-gauge write and semaphore release run on every path that acquired
the slot. -/
def probeHandler (st : ExporterState) (rawRemote : String)
    (client : String → Except RcloneErr RcloneSizeOutput) (elapsed : ℚ) :
    ProbeOutcome :=
  let st0 := { st with probeRequestsTotal := st.probeRequestsTotal + 1 }
  let remote := trimSpace rawRemote
  match validateRemote remote with
  | .error _ =>
      let (st1, status) := handleError st0 remote 400
      ⟨st1, status, false⟩
  | .ok () =>
      if st0.semaphoreCount < MaxConcurrentProbes then
        let stAcq := { st0 with semaphoreCount := st0.semaphoreCount + 1 }
        let bodyResult : ExporterState × Nat :=
          match client remote with
          | .error _ => handleError stAcq remote 500
          | .ok output =>
              ({ stAcq with
                  rcloneSizeBytes :=
                    setGauge stAcq.rcloneSizeBytes remote (output.bytes : ℚ)
                  rcloneObjectsCount :=
                    setGauge stAcq.rcloneObjectsCount remote (output.count : ℚ)
                  probeSuccess := setGauge stAcq.probeSuccess remote 1
                  lastRcloneSizeBytes := output.bytes
                  lastRcloneObjectsCount := output.count
                  lastProbeSuccess := 1 }, 200)
        let stDur :=
          { bodyResult.1 with
              probeDurationSeconds :=
                setGauge bodyResult.1.probeDurationSeconds remote elapsed
              lastProbeDurationSeconds := elapsed }
        let stRel := { stDur with semaphoreCount := stDur.semaphoreCount - 1 }
        ⟨stRel, bodyResult.2, true⟩
      else
        let (st1, status) := handleError st0 remote 429
        ⟨st1, status, false⟩

/-! ## Helper lemmas -/

/-- A remote accepted by `validateRemote` is non-empty. -/
theorem validateRemote_ok_ne_empty {r : String}
    (h : validateRemote r = .ok ()) : r ≠ "" := by
  intro he
  subst he
  simp [validateRemote] at h

/-- The empty byte string is not valid JSON. -/
theorem decodeSizeJson_empty : decodeSizeJson "" = none := rfl

/-- A string equals the empty literal exactly when its character list is
empty. -/
theorem string_eq_empty_iff {s : String} : s = "" ↔ s.data = [] := by
  rw [String.ext_iff]

/-- Characterization of `validateRemote`: acceptance is equivalent to the
three syntactic constraints. -/
theorem validateRemote_ok_iff (r : String) :
    validateRemote r = .ok () ↔
      (r ≠ "" ∧ r.utf8ByteSize ≤ MaxRemoteNameLength ∧
        ∀ c ∈ r.data, allowedRemoteChar c = true) := by
  constructor
  · intro h
    unfold validateRemote at h
    by_cases h1 : r = ""
    · rw [if_pos h1] at h
      cases h
    · rw [if_neg h1] at h
      by_cases h2 : r.utf8ByteSize > MaxRemoteNameLength
      · rw [if_pos h2] at h
        cases h
      · rw [if_neg h2] at h
        by_cases h3 : remoteNameMatches r = true
        · refine ⟨h1, by omega, ?_⟩
          unfold remoteNameMatches at h3
          simp only [Bool.and_eq_true, List.all_eq_true] at h3
          exact h3.2
        · rw [if_pos (by simpa using h3)] at h
          cases h
  · rintro ⟨h1, h2, h3⟩
    have hd : r.data ≠ [] := fun hnil => h1 (string_eq_empty_iff.mpr hnil)
    have hmatch : remoteNameMatches r = true := by
      unfold remoteNameMatches
      simp only [Bool.and_eq_true, Bool.not_eq_true', List.all_eq_true]
      constructor
      · cases hdata : r.data with
        | nil => exact absurd hdata hd
        | cons a l => rfl
      · intro c hc
        exact h3 c hc
    unfold validateRemote
    rw [if_neg h1, if_neg (by omega), if_neg (by simp [hmatch])]

/-- Writing the same value to the same gauge label twice is the same as
writing it once. -/
theorem setGauge_idem (g : String → Option ℚ) (l : String) (v : ℚ) :
    setGauge (setGauge g l v) l v = setGauge g l v := by
  funext x
  unfold setGauge
  split_ifs <;> rfl

/-! ## Claims -/

/-- C1 counterexample.  The claim ranges over the raw string supplied to
the probe handler and asserts that any string containing a character
outside `[-A-Za-z0-9_.:/]` is rejected with a 400 response and no
subprocess invocation.  The raw string " a" contains a space, which is
outside that set, yet the handler trims it away before validating, accepts
the request, and invokes the client. -/
theorem validation_untrimmed_charset_refuted :
    allowedRemoteChar ' ' = false ∧
    ' ' ∈ " a".data ∧
    validateRemote (trimSpace " a") = .ok () ∧
    (probeHandler initState " a" (fun _ => .ok ⟨1, 2⟩) 1).status = 200 ∧
    (probeHandler initState " a" (fun _ => .ok ⟨1, 2⟩) 1).invokedClient = true := by
  refine ⟨rfl, ?_, rfl, rfl, rfl⟩
  decide

/-- C1 (amended): the probe handler validates the remote parameter after
trimming surrounding whitespace.  Validation of the trimmed string
succeeds exactly when it is non-empty, at most `MaxRemoteNameLength` bytes
long, and made only of characters in `[-A-Za-z0-9_.:/]`; when it fails, the
handler responds 400 and never invokes the external process. -/
theorem validation_after_trim_spec (st : ExporterState) (raw : String)
    (client : String → Except RcloneErr RcloneSizeOutput) (d : ℚ) :
    (validateRemote (trimSpace raw) = .ok () ↔
      (trimSpace raw ≠ "" ∧
       (trimSpace raw).utf8ByteSize ≤ MaxRemoteNameLength ∧
       ∀ c ∈ (trimSpace raw).data, allowedRemoteChar c = true)) ∧
    (validateRemote (trimSpace raw) ≠ .ok () →
      (probeHandler st raw client d).status = 400 ∧
      (probeHandler st raw client d).invokedClient = false) := by
  refine ⟨validateRemote_ok_iff (trimSpace raw), ?_⟩
  intro hne
  cases hv : validateRemote (trimSpace raw) with
  | error e => simp [probeHandler, hv, handleError]
  | ok u =>
      cases u
      exact absurd hv hne

/-- C1 witness. -/
theorem validation_after_trim_spec_witness :
    validateRemote (trimSpace " ") ≠ .ok () ∧
    (probeHandler initState " " (fun _ => .ok ⟨1, 2⟩) 1).status = 400 ∧
    (probeHandler initState " " (fun _ => .ok ⟨1, 2⟩) 1).invokedClient = false := by
  have hne : validateRemote (trimSpace " ") ≠ .ok () := by
    intro h
    exact absurd h (by intro h2; cases h2)
  exact ⟨hne,
    (validation_after_trim_spec initState " " (fun _ => .ok ⟨1, 2⟩) 1).2 hne⟩

/-- C2: when the client returns a successful result with count `c` and
bytes `b` for a validated, admitted probe of remote `r`, the handler sets
the size gauge of `r` to `b`, the object-count gauge of `r` to `c`, and
the success gauge of `r` to 1, and responds 200 (the exposition snapshot
is served from this final state). -/
theorem probe_success_sets_gauges (st : ExporterState) (raw : String)
    (client : String → Except RcloneErr RcloneSizeOutput) (d : ℚ) (c b : Int)
    (hval : validateRemote (trimSpace raw) = .ok ())
    (hsem : st.semaphoreCount < MaxConcurrentProbes)
    (_hc : 0 ≤ c) (_hb : 0 ≤ b)
    (hclient : client (trimSpace raw) = .ok ⟨c, b⟩) :
    (probeHandler st raw client d).state.rcloneSizeBytes (trimSpace raw) =
      some (b : ℚ) ∧
    (probeHandler st raw client d).state.rcloneObjectsCount (trimSpace raw) =
      some (c : ℚ) ∧
    (probeHandler st raw client d).state.probeSuccess (trimSpace raw) =
      some 1 ∧
    (probeHandler st raw client d).status = 200 := by
  simp [probeHandler, hval, hsem, hclient, setGauge]

/-- C2 witness. -/
theorem probe_success_sets_gauges_witness :
    (probeHandler initState "gdrive:" (fun _ => .ok ⟨42, 1000⟩) 1).state.rcloneSizeBytes
      (trimSpace "gdrive:") = some 1000 ∧
    (probeHandler initState "gdrive:" (fun _ => .ok ⟨42, 1000⟩) 1).state.rcloneObjectsCount
      (trimSpace "gdrive:") = some 42 ∧
    (probeHandler initState "gdrive:" (fun _ => .ok ⟨42, 1000⟩) 1).state.probeSuccess
      (trimSpace "gdrive:") = some 1 ∧
    (probeHandler initState "gdrive:" (fun _ => .ok ⟨42, 1000⟩) 1).status = 200 :=
  probe_success_sets_gauges initState "gdrive:" (fun _ => .ok ⟨42, 1000⟩) 1 42 1000
    rfl (by decide) (by decide) (by decide) rfl

/-- C3: with all `MaxConcurrentProbes = 10` semaphore permits held, a
validated probe request is rejected immediately with status 429: the
non-blocking select takes the default branch, no permit is consumed (the
permit count is unchanged), and the external process is never invoked. -/
theorem probe_admission_full_rejects (st : ExporterState) (raw : String)
    (client : String → Except RcloneErr RcloneSizeOutput) (d : ℚ)
    (hval : validateRemote (trimSpace raw) = .ok ())
    (hsem : st.semaphoreCount = MaxConcurrentProbes) :
    MaxConcurrentProbes = 10 ∧
    (probeHandler st raw client d).status = 429 ∧
    (probeHandler st raw client d).invokedClient = false ∧
    (probeHandler st raw client d).state.semaphoreCount = st.semaphoreCount := by
  have hnot : ¬ st.semaphoreCount < MaxConcurrentProbes := by omega
  have hner : trimSpace raw ≠ "" := validateRemote_ok_ne_empty hval
  refine ⟨rfl, ?_⟩
  simp [probeHandler, hval, hnot, handleError, hner]

/-- C3 witness. -/
theorem probe_admission_full_rejects_witness :
    MaxConcurrentProbes = 10 ∧
    (probeHandler { initState with semaphoreCount := 10 } "gdrive:"
      (fun _ => .ok ⟨1, 1⟩) 1).status = 429 ∧
    (probeHandler { initState with semaphoreCount := 10 } "gdrive:"
      (fun _ => .ok ⟨1, 1⟩) 1).invokedClient = false ∧
    (probeHandler { initState with semaphoreCount := 10 } "gdrive:"
      (fun _ => .ok ⟨1, 1⟩) 1).state.semaphoreCount =
      ({ initState with semaphoreCount := 10 } : ExporterState).semaphoreCount :=
  probe_admission_full_rejects { initState with semaphoreCount := 10 } "gdrive:"
    (fun _ => .ok ⟨1, 1⟩) 1 rfl rfl

/-- C4: the output-parsing stage of `GetRemoteSize` rejects zero-length
output, rejects output that does not decode as the expected JSON structure,
rejects a decoded result with a negative count or bytes field, and every
successfully parsed result has non-negative count and bytes. -/
theorem parse_output_spec (output : String) :
    (output = "" → parseSizeOutput output = .error .emptyOutput) ∧
    (output ≠ "" → decodeSizeJson output = none →
      parseSizeOutput output = .error .invalidJson) ∧
    (∀ r, decodeSizeJson output = some r → (r.count < 0 ∨ r.bytes < 0) →
      parseSizeOutput output = .error .negativeValues) ∧
    (∀ r, parseSizeOutput output = .ok r → 0 ≤ r.count ∧ 0 ≤ r.bytes) := by
  refine ⟨fun h => by simp [parseSizeOutput, h],
    fun hne hdec => by simp [parseSizeOutput, hne, hdec], ?_, ?_⟩
  · intro r hdec hneg
    have hne : output ≠ "" := by
      rintro rfl
      rw [decodeSizeJson_empty] at hdec
      cases hdec
    have hcond : r.bytes < 0 ∨ r.count < 0 := hneg.symm
    simp [parseSizeOutput, hne, hdec, hcond]
  · intro r h
    by_cases hne : output = ""
    · simp [parseSizeOutput, hne] at h
    · cases hdec : decodeSizeJson output with
      | none => simp [parseSizeOutput, hne, hdec] at h
      | some r0 =>
          by_cases hneg : r0.bytes < 0 ∨ r0.count < 0
          · simp [parseSizeOutput, hne, hdec, hneg] at h
          · simp [parseSizeOutput, hne, hdec, hneg] at h
            push_neg at hneg
            cases h
            omega

/-- C4 witness. -/
theorem parse_output_spec_witness :
    parseSizeOutput "" = .error .emptyOutput ∧
    parseSizeOutput "not json" = .error .invalidJson ∧
    parseSizeOutput "\x7b\"count\":-1,\"bytes\":500\x7d" =
      .error .negativeValues ∧
    (0 ≤ (⟨42, 1000⟩ : RcloneSizeOutput).count ∧
      0 ≤ (⟨42, 1000⟩ : RcloneSizeOutput).bytes) :=
  ⟨(parse_output_spec "").1 rfl,
   (parse_output_spec "not json").2.1 (by decide) rfl,
   (parse_output_spec "\x7b\"count\":-1,\"bytes\":500\x7d").2.2.1 ⟨-1, 500⟩
     rfl (Or.inl (by decide)),
   (parse_output_spec "\x7b\"count\":42,\"bytes\":1000\x7d").2.2.2 ⟨42, 1000⟩
     rfl⟩

/-- C5: when the subprocess output decodes to a result with a negative
count or bytes value, the probe fails: `GetRemoteSize` returns the
negative-values data error, the handler responds 500, the success gauge of
the remote is set to 0, and the size and object-count gauge vectors are
left exactly as they were before the probe. -/
theorem probe_negative_values_frame (st : ExporterState) (raw out : String)
    (d : ℚ) (c b : Int)
    (hval : validateRemote (trimSpace raw) = .ok ())
    (hsem : st.semaphoreCount < MaxConcurrentProbes)
    (hdec : decodeSizeJson out = some ⟨c, b⟩)
    (hneg : c < 0 ∨ b < 0) :
    (probeHandler st raw (fun rem => getRemoteSize rem (.success out)) d).status = 500 ∧
    (probeHandler st raw (fun rem => getRemoteSize rem (.success out)) d).state.probeSuccess
      (trimSpace raw) = some 0 ∧
    (probeHandler st raw (fun rem => getRemoteSize rem (.success out)) d).state.rcloneSizeBytes =
      st.rcloneSizeBytes ∧
    (probeHandler st raw (fun rem => getRemoteSize rem (.success out)) d).state.rcloneObjectsCount =
      st.rcloneObjectsCount := by
  have hner : trimSpace raw ≠ "" := validateRemote_ok_ne_empty hval
  have hout : out ≠ "" := by
    rintro rfl
    rw [decodeSizeJson_empty] at hdec
    cases hdec
  have hclient : getRemoteSize (trimSpace raw) (.success out) =
      .error .negativeValues := by
    have hcond : (⟨c, b⟩ : RcloneSizeOutput).bytes < 0 ∨
        (⟨c, b⟩ : RcloneSizeOutput).count < 0 := by
      rcases hneg with h | h
      · exact Or.inr h
      · exact Or.inl h
    simp [getRemoteSize, hner, parseSizeOutput, hout, hdec, hcond]
  simp [probeHandler, hval, hsem, hclient, handleError, hner, setGauge]

/-- C5 witness. -/
theorem probe_negative_values_frame_witness :
    (probeHandler initState "gdrive:"
      (fun rem => getRemoteSize rem (.success "\x7b\"count\":-1,\"bytes\":500\x7d")) 2).status = 500 ∧
    (probeHandler initState "gdrive:"
      (fun rem => getRemoteSize rem (.success "\x7b\"count\":-1,\"bytes\":500\x7d")) 2).state.probeSuccess
      (trimSpace "gdrive:") = some 0 ∧
    (probeHandler initState "gdrive:"
      (fun rem => getRemoteSize rem (.success "\x7b\"count\":-1,\"bytes\":500\x7d")) 2).state.rcloneSizeBytes =
      initState.rcloneSizeBytes ∧
    (probeHandler initState "gdrive:"
      (fun rem => getRemoteSize rem (.success "\x7b\"count\":-1,\"bytes\":500\x7d")) 2).state.rcloneObjectsCount =
      initState.rcloneObjectsCount :=
  probe_negative_values_frame initState "gdrive:"
    "\x7b\"count\":-1,\"bytes\":500\x7d" 2 (-1) 500
    rfl (by decide) rfl (Or.inl (by decide))

/-- C6 counterexample.  The claim asserts the probe-duration gauge is set
on every probe request, including validation failures and admission
rejections.  In the handler the deferred duration write is installed only
after validation and semaphore acquisition succeed: a request with an
empty remote is answered 400 with the duration gauge vector untouched, and
a validated request arriving with all permits held is answered 429 with
the duration gauge vector untouched. -/
theorem probe_duration_unset_on_rejection :
    (probeHandler initState "" (fun _ => .ok ⟨1, 1⟩) 3).status = 400 ∧
    (probeHandler initState "" (fun _ => .ok ⟨1, 1⟩) 3).state.probeDurationSeconds =
      initState.probeDurationSeconds ∧
    initState.probeDurationSeconds "" = none ∧
    (probeHandler { initState with semaphoreCount := 10 } "gdrive:"
      (fun _ => .ok ⟨1, 1⟩) 3).status = 429 ∧
    (probeHandler { initState with semaphoreCount := 10 } "gdrive:"
      (fun _ => .ok ⟨1, 1⟩) 3).state.probeDurationSeconds =
      initState.probeDurationSeconds ∧
    initState.probeDurationSeconds "gdrive:" = none :=
  ⟨rfl, rfl, rfl, ⟨rfl, rfl, rfl⟩⟩

/-- C6 (amended): for every probe request that passes validation and
acquires a concurrency permit, the duration gauge of the trimmed remote is
set to the elapsed duration — a non-negative value — before the handler
returns, on the success path and on every failure path after admission;
requests rejected at validation or at admission leave the duration gauge
vector unchanged. -/
theorem probe_duration_after_admission (st : ExporterState) (raw : String)
    (client : String → Except RcloneErr RcloneSizeOutput) (d : ℚ)
    (hd : 0 ≤ d) :
    (validateRemote (trimSpace raw) = .ok () →
      st.semaphoreCount < MaxConcurrentProbes →
      (probeHandler st raw client d).state.probeDurationSeconds (trimSpace raw) =
        some d ∧ 0 ≤ d) ∧
    (validateRemote (trimSpace raw) ≠ .ok () ∨
        MaxConcurrentProbes ≤ st.semaphoreCount →
      (probeHandler st raw client d).state.probeDurationSeconds =
        st.probeDurationSeconds) := by
  constructor
  · intro hval hsem
    refine ⟨?_, hd⟩
    cases hc : client (trimSpace raw) with
    | error e => simp [probeHandler, hval, hsem, hc, handleError,
        validateRemote_ok_ne_empty hval, setGauge]
    | ok out => simp [probeHandler, hval, hsem, hc, setGauge]
  · intro hrej
    cases hv : validateRemote (trimSpace raw) with
    | error e =>
        simp [probeHandler, hv, handleError]
        split <;> rfl
    | ok u =>
        cases u
        have hsem : ¬ st.semaphoreCount < MaxConcurrentProbes := by
          rcases hrej with h | h
          · exact absurd hv h
          · omega
        simp [probeHandler, hv, hsem, handleError,
          validateRemote_ok_ne_empty hv]

/-- C6 witness. -/
theorem probe_duration_after_admission_witness :
    0 ≤ (2 : ℚ) ∧
    (probeHandler initState "gdrive:" (fun _ => .ok ⟨1, 1⟩) 2).state.probeDurationSeconds
      (trimSpace "gdrive:") = some 2 ∧
    (probeHandler { initState with semaphoreCount := 10 } "gdrive:"
      (fun _ => .ok ⟨1, 1⟩) 2).state.probeDurationSeconds =
      ({ initState with semaphoreCount := 10 } : ExporterState).probeDurationSeconds :=
  ⟨by norm_num,
   ((probe_duration_after_admission initState "gdrive:" (fun _ => .ok ⟨1, 1⟩) 2
      (by norm_num)).1 rfl (by decide)).1,
   (probe_duration_after_admission { initState with semaphoreCount := 10 }
      "gdrive:" (fun _ => .ok ⟨1, 1⟩) 2 (by norm_num)).2
      (Or.inr (by decide))⟩

/-- C7: every probe request increments the total-request counter by
exactly one; every failing probe (validation failure, throttling, or
client error) increments the error counter by exactly one while a
successful probe leaves it unchanged; neither counter ever decreases. -/
theorem probe_counters_monotone (st : ExporterState) (raw : String)
    (client : String → Except RcloneErr RcloneSizeOutput) (d : ℚ) :
    (probeHandler st raw client d).state.probeRequestsTotal =
      st.probeRequestsTotal + 1 ∧
    ((probeHandler st raw client d).status ≠ 200 →
      (probeHandler st raw client d).state.scrapeErrorsTotal =
        st.scrapeErrorsTotal + 1) ∧
    ((probeHandler st raw client d).status = 200 →
      (probeHandler st raw client d).state.scrapeErrorsTotal =
        st.scrapeErrorsTotal) ∧
    st.probeRequestsTotal ≤ (probeHandler st raw client d).state.probeRequestsTotal ∧
    st.scrapeErrorsTotal ≤ (probeHandler st raw client d).state.scrapeErrorsTotal := by
  cases hv : validateRemote (trimSpace raw) with
  | error e =>
      simp [probeHandler, hv, handleError]
      split <;> simp
  | ok u =>
      cases u
      by_cases hsem : st.semaphoreCount < MaxConcurrentProbes
      · cases hc : client (trimSpace raw) with
        | error err =>
            simp [probeHandler, hv, hsem, hc, handleError,
              validateRemote_ok_ne_empty hv]
        | ok out =>
            simp [probeHandler, hv, hsem, hc]
      · simp [probeHandler, hv, hsem, handleError,
          validateRemote_ok_ne_empty hv]

/-- C7 witness. -/
theorem probe_counters_monotone_witness :
    (probeHandler initState "gdrive:" (fun _ => .ok ⟨1, 1⟩) 1).state.probeRequestsTotal =
      initState.probeRequestsTotal + 1 ∧
    (probeHandler initState "" (fun _ => .ok ⟨1, 1⟩) 1).state.scrapeErrorsTotal =
      initState.scrapeErrorsTotal + 1 ∧
    (probeHandler initState "gdrive:" (fun _ => .ok ⟨1, 1⟩) 1).state.scrapeErrorsTotal =
      initState.scrapeErrorsTotal :=
  ⟨(probe_counters_monotone initState "gdrive:" (fun _ => .ok ⟨1, 1⟩) 1).1,
   (probe_counters_monotone initState "" (fun _ => .ok ⟨1, 1⟩) 1).2.1 (by decide),
   (probe_counters_monotone initState "gdrive:" (fun _ => .ok ⟨1, 1⟩) 1).2.2.1 rfl⟩

/-- C8: `GetRemoteSize` classifies the three subprocess failure modes into
three pairwise distinct errors — deadline expiry to the timeout error, a
non-zero exit to an error carrying the exit code and the trimmed combined
output, a start failure to the launch-failure error — and the probe
handler surfaces every client error as a 500 response. -/
theorem runner_failure_classification (st : ExporterState) (raw out : String)
    (d : ℚ) (code : Int)
    (hval : validateRemote (trimSpace raw) = .ok ())
    (hsem : st.semaphoreCount < MaxConcurrentProbes) :
    getRemoteSize (trimSpace raw) .timeout = .error .timeout ∧
    getRemoteSize (trimSpace raw) (.exited code out) =
      .error (.nonZeroExit code (trimSpace out)) ∧
    getRemoteSize (trimSpace raw) .launchFailure = .error .launchFailure ∧
    (RcloneErr.timeout ≠ RcloneErr.nonZeroExit code (trimSpace out) ∧
     RcloneErr.timeout ≠ RcloneErr.launchFailure ∧
     RcloneErr.nonZeroExit code (trimSpace out) ≠ RcloneErr.launchFailure) ∧
    (∀ exec err, getRemoteSize (trimSpace raw) exec = .error err →
      (probeHandler st raw (fun rem => getRemoteSize rem exec) d).status = 500) := by
  have hner : trimSpace raw ≠ "" := validateRemote_ok_ne_empty hval
  refine ⟨by simp [getRemoteSize, hner], by simp [getRemoteSize, hner],
    by simp [getRemoteSize, hner], ⟨by simp, by simp, by simp⟩, ?_⟩
  intro exec err herr
  simp [probeHandler, hval, hsem, herr, handleError, hner]

/-- C8 witness. -/
theorem runner_failure_classification_witness :
    getRemoteSize (trimSpace "gdrive:") .timeout = .error .timeout ∧
    getRemoteSize (trimSpace "gdrive:") (.exited 3 " boom ") =
      .error (.nonZeroExit 3 (trimSpace " boom ")) ∧
    getRemoteSize (trimSpace "gdrive:") .launchFailure = .error .launchFailure ∧
    (probeHandler initState "gdrive:"
      (fun rem => getRemoteSize rem .timeout) 1).status = 500 := by
  have h := runner_failure_classification initState "gdrive:" " boom " 1 3
    rfl (by decide)
  exact ⟨h.1, h.2.1, h.2.2.1, h.2.2.2.2 .timeout .timeout h.1⟩

/-- C9: running the same successful probe twice in sequence for the same
remote with the same client result leaves the size, object-count, and
success gauge vectors identical after the second run to their values after
the first run. -/
theorem probe_idempotent_gauges (st : ExporterState) (raw : String)
    (client : String → Except RcloneErr RcloneSizeOutput) (d : ℚ)
    (out : RcloneSizeOutput)
    (hval : validateRemote (trimSpace raw) = .ok ())
    (hsem : st.semaphoreCount < MaxConcurrentProbes)
    (hclient : client (trimSpace raw) = .ok out) :
    (probeHandler (probeHandler st raw client d).state raw client d).state.rcloneSizeBytes =
      (probeHandler st raw client d).state.rcloneSizeBytes ∧
    (probeHandler (probeHandler st raw client d).state raw client d).state.rcloneObjectsCount =
      (probeHandler st raw client d).state.rcloneObjectsCount ∧
    (probeHandler (probeHandler st raw client d).state raw client d).state.probeSuccess =
      (probeHandler st raw client d).state.probeSuccess := by
  simp [probeHandler, hval, hsem, hclient, setGauge_idem]

/-- C9 witness. -/
theorem probe_idempotent_gauges_witness :
    (probeHandler (probeHandler initState "gdrive:" (fun _ => .ok ⟨42, 1000⟩) 1).state
      "gdrive:" (fun _ => .ok ⟨42, 1000⟩) 1).state.rcloneSizeBytes =
      (probeHandler initState "gdrive:" (fun _ => .ok ⟨42, 1000⟩) 1).state.rcloneSizeBytes ∧
    (probeHandler (probeHandler initState "gdrive:" (fun _ => .ok ⟨42, 1000⟩) 1).state
      "gdrive:" (fun _ => .ok ⟨42, 1000⟩) 1).state.rcloneObjectsCount =
      (probeHandler initState "gdrive:" (fun _ => .ok ⟨42, 1000⟩) 1).state.rcloneObjectsCount ∧
    (probeHandler (probeHandler initState "gdrive:" (fun _ => .ok ⟨42, 1000⟩) 1).state
      "gdrive:" (fun _ => .ok ⟨42, 1000⟩) 1).state.probeSuccess =
      (probeHandler initState "gdrive:" (fun _ => .ok ⟨42, 1000⟩) 1).state.probeSuccess :=
  probe_idempotent_gauges initState "gdrive:" (fun _ => .ok ⟨42, 1000⟩) 1
    ⟨42, 1000⟩ rfl (by decide) rfl

/-- Folding the size-struct field decoder over members none of which is a
`count` or `bytes` key leaves the accumulator unchanged. -/
theorem foldlM_applySizeField_skip (fields : List (String × Json))
    (acc : RcloneSizeOutput)
    (h : ∀ kv ∈ fields, lowerKey kv.1 ≠ "count" ∧ lowerKey kv.1 ≠ "bytes") :
    fields.foldlM applySizeField acc = some acc := by
  induction fields generalizing acc with
  | nil => rfl
  | cons kv tl ih =>
      have hh := h kv (by simp)
      have hstep : applySizeField acc kv = some acc := by
        simp [applySizeField, hh.1, hh.2]
      rw [List.foldlM_cons, hstep]
      exact ih acc (fun kv2 hm => h kv2 (by simp [hm]))

/-- Folding the size-struct field decoder over members none of which is a
`count` key never changes the count component of the accumulator. -/
theorem foldlM_applySizeField_count_frame (fields : List (String × Json)) :
    ∀ acc r : RcloneSizeOutput, (∀ kv ∈ fields, lowerKey kv.1 ≠ "count") →
      fields.foldlM applySizeField acc = some r → r.count = acc.count := by
  induction fields with
  | nil =>
      intro acc r _ hres
      injection hres with hres
      rw [← hres]
  | cons kv tl ih =>
      intro acc r h hres
      rw [List.foldlM_cons] at hres
      cases hstep : applySizeField acc kv with
      | none =>
          rw [hstep] at hres
          cases hres
      | some acc2 =>
          rw [hstep] at hres
          have hk := h kv (by simp)
          have hcnt : acc2.count = acc.count := by
            unfold applySizeField at hstep
            rw [if_neg hk] at hstep
            by_cases hb : lowerKey kv.1 = "bytes"
            · rw [if_pos hb] at hstep
              cases hf : fieldToInt64 acc.bytes kv.2 with
              | none =>
                  rw [hf] at hstep
                  cases hstep
              | some n =>
                  rw [hf] at hstep
                  injection hstep with hstep
                  rw [← hstep]
            · rw [if_neg hb] at hstep
              injection hstep with hstep
              rw [← hstep]
          rw [← hcnt]
          exact ih acc2 r (fun kv2 hm => h kv2 (List.mem_cons_of_mem _ hm)) hres

/-- Folding the size-struct field decoder over members none of which is a
`bytes` key never changes the bytes component of the accumulator. -/
theorem foldlM_applySizeField_bytes_frame (fields : List (String × Json)) :
    ∀ acc r : RcloneSizeOutput, (∀ kv ∈ fields, lowerKey kv.1 ≠ "bytes") →
      fields.foldlM applySizeField acc = some r → r.bytes = acc.bytes := by
  induction fields with
  | nil =>
      intro acc r _ hres
      injection hres with hres
      rw [← hres]
  | cons kv tl ih =>
      intro acc r h hres
      rw [List.foldlM_cons] at hres
      cases hstep : applySizeField acc kv with
      | none =>
          rw [hstep] at hres
          cases hres
      | some acc2 =>
          rw [hstep] at hres
          have hk := h kv (by simp)
          have hbyt : acc2.bytes = acc.bytes := by
            unfold applySizeField at hstep
            by_cases hc : lowerKey kv.1 = "count"
            · rw [if_pos hc] at hstep
              cases hf : fieldToInt64 acc.count kv.2 with
              | none =>
                  rw [hf] at hstep
                  cases hstep
              | some n =>
                  rw [hf] at hstep
                  injection hstep with hstep
                  rw [← hstep]
            · rw [if_neg hc, if_neg hk] at hstep
              injection hstep with hstep
              rw [← hstep]
          rw [← hbyt]
          exact ih acc2 r (fun kv2 hm => h kv2 (List.mem_cons_of_mem _ hm)) hres

/-- C10: in a decoded JSON object output, an omitted `count` field is
reported as 0 whatever the other members are, an omitted `bytes` field is
reported as 0 whatever the other members are, an object omitting both
decodes to the zero-valued result — in particular the two-byte output
consisting of an empty JSON object parses into a valid result with count 0
and bytes 0 — and a decoded result is accepted whenever neither field is
negative. -/
theorem unmarshal_missing_fields_zero (fields : List (String × Json))
    (r : RcloneSizeOutput) :
    ((∀ kv ∈ fields, lowerKey kv.1 ≠ "count") →
      unmarshalSize (.obj fields) = some r → r.count = 0) ∧
    ((∀ kv ∈ fields, lowerKey kv.1 ≠ "bytes") →
      unmarshalSize (.obj fields) = some r → r.bytes = 0) ∧
    ((∀ kv ∈ fields, lowerKey kv.1 ≠ "count" ∧ lowerKey kv.1 ≠ "bytes") →
      unmarshalSize (.obj fields) = some ⟨0, 0⟩) ∧
    parseSizeOutput "\x7b\x7d" = .ok ⟨0, 0⟩ ∧
    (∀ s r2, decodeSizeJson s = some r2 → s ≠ "" → 0 ≤ r2.count → 0 ≤ r2.bytes →
      parseSizeOutput s = .ok r2) := by
  refine ⟨?_, ?_, ?_, rfl, ?_⟩
  · intro h hdec
    unfold unmarshalSize at hdec
    exact foldlM_applySizeField_count_frame fields ⟨0, 0⟩ r h hdec
  · intro h hdec
    unfold unmarshalSize at hdec
    exact foldlM_applySizeField_bytes_frame fields ⟨0, 0⟩ r h hdec
  · intro h
    unfold unmarshalSize
    exact foldlM_applySizeField_skip fields ⟨0, 0⟩ h
  · intro s r2 hdec hne hc hb
    have hnotneg : ¬ (r2.bytes < 0 ∨ r2.count < 0) := by omega
    simp [parseSizeOutput, hne, hdec, hnotneg]

/-- C10 witness. -/
theorem unmarshal_missing_fields_zero_witness :
    unmarshalSize (.obj [("bytes", .num 7)]) = some ⟨0, 7⟩ ∧
    (⟨0, 7⟩ : RcloneSizeOutput).count = 0 ∧
    unmarshalSize (.obj [("count", .num 5)]) = some ⟨5, 0⟩ ∧
    (⟨5, 0⟩ : RcloneSizeOutput).bytes = 0 ∧
    decodeSizeJson "\x7b\"count\":5\x7d" = some ⟨5, 0⟩ ∧
    unmarshalSize (.obj [("extra", .bool true)]) = some ⟨0, 0⟩ ∧
    parseSizeOutput "\x7b\x7d" = .ok ⟨0, 0⟩ := by
  have honlyBytes : ∀ kv ∈ [(("bytes" : String), Json.num 7)],
      lowerKey kv.1 ≠ "count" := by
    intro kv hm
    simp only [List.mem_singleton] at hm
    subst hm
    decide
  have honlyCount : ∀ kv ∈ [(("count" : String), Json.num 5)],
      lowerKey kv.1 ≠ "bytes" := by
    intro kv hm
    simp only [List.mem_singleton] at hm
    subst hm
    decide
  have hneither : ∀ kv ∈ [(("extra" : String), Json.bool true)],
      lowerKey kv.1 ≠ "count" ∧ lowerKey kv.1 ≠ "bytes" := by
    intro kv hm
    simp only [List.mem_singleton] at hm
    subst hm
    exact ⟨by decide, by decide⟩
  refine ⟨rfl, ?_, rfl, ?_, rfl, ?_, ?_⟩
  · exact (unmarshal_missing_fields_zero [("bytes", .num 7)] ⟨0, 7⟩).1
      honlyBytes rfl
  · exact (unmarshal_missing_fields_zero [("count", .num 5)] ⟨5, 0⟩).2.1
      honlyCount rfl
  · exact (unmarshal_missing_fields_zero [("extra", .bool true)] ⟨0, 0⟩).2.2.1
      hneither
  · exact (unmarshal_missing_fields_zero [] ⟨0, 0⟩).2.2.2.1

end RcloneExporter
